import Mathlib

/-!
Shallow embedding of the storefront repository's checkout, order-lifecycle,
product-edit and payment-relay code, together with theorems settling the
specification's claims about them.

Conventions of the embedding:
* Database tables are lists of row structures inside a single `Db` record;
  a supabase `select ... eq(id, x) single()` is `List.find?`, an
  `update ... eq(id, x)` maps over the rows, an `insert` appends, a
  `delete ... eq(...)` filters.
* JS numbers appearing in rows are `Int` (stock, quantity) or `Rat`
  (prices and money amounts); `x || d` on such a field is `jsOrInt` /
  `jsOrRat` (`0` is falsy), on an optional string it is `jsOrStr`
  (`undefined`, `null` and `""` are falsy), and `if (x)` on an optional
  numeric id is `jsTruthyId` (`null`/`undefined`/`0` are falsy).
* Only the remote failure-free executions are modelled: every remote call
  returns its normal result, matching the code paths the claims describe.
-/

namespace Storefront

/-- JS `x || d` on an embedded integer field (`0` is falsy). -/
def jsOrInt (x d : Int) : Int := if x = 0 then d else x

/-- JS `x || d` on an embedded rational (money) field (`0` is falsy). -/
def jsOrRat (x d : Rat) : Rat := if x = 0 then d else x

/-- JS `x || d` where `x` is an optional string (`undefined`/`null`/`""` are falsy). -/
def jsOrStr (x : Option String) (d : String) : String :=
  match x with
  | none => d
  | some s => if s = "" then d else s

/-- JS truthiness of an optional numeric id (`null`/`undefined`/`0` are falsy). -/
def jsTruthyId (x : Option Nat) : Bool :=
  match x with
  | none => false
  | some n => n != 0

/-- `s.toLowerCase()`, written over the character list so that it is
kernel-computable (behaviourally `String.toLower`; the statuses concerned
are ASCII). -/
def jsToLower (s : String) : String := String.mk (s.data.map Char.toLower)

/-- A `product_variants` row. -/
structure Variant where
  id : Nat
  product_id : Nat
  color : String
  size : String
  stock : Int
  img_url : String
deriving DecidableEq

/-- A `products` row (the fields the embedded operations touch). -/
structure Product where
  id : Nat
  name : String
  price : Rat
  stock : Int
  img_url : String
deriving DecidableEq

/-- The `products(*)` join carried on a loaded cart line. -/
structure ProductJoin where
  name : String
  price : Rat
  img_url : String
deriving DecidableEq

/-- The `product_variants(*)` join carried on a loaded cart line. -/
structure VariantJoin where
  color : String
  size : String
  img_url : String
deriving DecidableEq

/-- An in-memory cart line as held in the customer page state. -/
structure CartItem where
  id : Nat
  product_id : Nat
  product_variant_id : Nat
  quantity : Int
  products : Option ProductJoin
  product_variants : Option VariantJoin
deriving DecidableEq

/-- A `cart_items` row (only the cart ownership matters to the model). -/
structure CartRow where
  id : Nat
  cart_id : Nat
deriving DecidableEq

/-- A `user_addresses` row. -/
structure Address where
  id : Nat
  label : String
  full_name : String
  phone : String
  address_line : String
  city : String
  province : String
  postal_code : String
deriving DecidableEq

/-- An `orders` row. -/
structure Order where
  id : Nat
  user_id : Nat
  total : Rat
  status : String
  payment_status : String
  payment_method : String
  shipping_address_id : Option Nat
  shipping_label : Option String
  shipping_full_name : Option String
  shipping_phone : Option String
  shipping_address_line : Option String
  shipping_city : Option String
  shipping_province : Option String
  shipping_postal_code : Option String
deriving DecidableEq

/-- An `order_items` row (the per-line snapshot of a placed order). -/
structure OrderItem where
  order_id : Nat
  product_id : Nat
  product_variant_id : Option Nat
  quantity : Int
  price : Rat
  name : String
  color : String
  size : String
  img_url : String
deriving DecidableEq

/-- A `payments` row. -/
structure Payment where
  order_id : Nat
  amount : Rat
  method : String
  status : String
  transaction_id : Option String
deriving DecidableEq

/-- The remote relational state: one list per table, plus a fresh-id counter
standing for the backend's id assignment. -/
structure Db where
  variants : List Variant
  products : List Product
  orders : List Order
  order_items : List OrderItem
  payments : List Payment
  cart_items : List CartRow
  user_addresses : List Address
  nextId : Nat
deriving DecidableEq

/-- `supabase.from("product_variants").select("*").eq("id", vid).single()`. -/
def findVariant (db : Db) (vid : Nat) : Option Variant :=
  db.variants.find? (fun v => v.id == vid)

/-- `supabase.from("products").select(...).eq("id", pid).single()`. -/
def findProduct (db : Db) (pid : Nat) : Option Product :=
  db.products.find? (fun p => p.id == pid)

/-- `supabase.from("orders").select(...).eq("id", oid).single()`. -/
def findOrder (db : Db) (oid : Nat) : Option Order :=
  db.orders.find? (fun o => o.id == oid)

/-- `supabase.from("user_addresses").select("*").eq("id", aid).single()`. -/
def findAddress (db : Db) (aid : Nat) : Option Address :=
  db.user_addresses.find? (fun a => a.id == aid)

/-- `supabase.from("product_variants").update({ stock: s }).eq("id", vid)`. -/
def updateVariantStock (db : Db) (vid : Nat) (s : Int) : Db :=
  { db with variants :=
      db.variants.map (fun v => if v.id == vid then { v with stock := s } else v) }

/-- `supabase.from("orders").update({ status: st }).eq("id", oid)`. -/
def setOrderStatus (db : Db) (oid : Nat) (st : String) : Db :=
  { db with orders :=
      db.orders.map (fun o => if o.id == oid then { o with status := st } else o) }

/-- `supabase.from("order_items").select("*").eq("order_id", oid)`. -/
def orderItemsOf (db : Db) (oid : Nat) : List OrderItem :=
  db.order_items.filter (fun it => it.order_id == oid)

/-- The recurring aggregate computation
`(vars || []).reduce((s, v) => s + Number(v.stock || 0), 0)` over the
variants owned by product `pid`. -/
def variantStockSum (vs : List Variant) (pid : Nat) : Int :=
  ((vs.filter (fun v => v.product_id == pid)).map (fun v => jsOrInt v.stock 0)).foldl (· + ·) 0

/-- `supabase.from("products").update({ stock: total }).eq("id", pid)` where
`total` is the recomputed variant stock sum. -/
def recalcProduct (db : Db) (pid : Nat) : Db :=
  { db with products :=
      db.products.map (fun p =>
        if p.id == pid then { p with stock := variantStockSum db.variants pid } else p) }

/-- `productIdsToRecalc.add(pid)` on a JS `Set` (insertion order, no duplicates). -/
def insertUnique (l : List Nat) (x : Nat) : List Nat :=
  if x ∈ l then l else l ++ [x]

/-- Iteration `for (const pid of productIdsToRecalc) { ...recompute... }`. -/
def recalcProducts (db : Db) (pids : List Nat) : Db :=
  pids.foldl recalcProduct db

/-! ### Checkout (`placeOrder`, customerhomepage.jsx lines 687-836) -/

/-- `ci.products?.name || "an item"` as used in the shortfall alert. -/
def itemName (ci : CartItem) : String :=
  jsOrStr (ci.products.map (fun p => p.name)) "an item"

/-- The shortfall alert text
`Not enough stock for NAME. Available: STOCK, requested: QTY`. -/
def shortfallMsg (ci : CartItem) (available : Int) : String :=
  "Not enough stock for " ++ itemName ci ++ ". Available: " ++ toString available
    ++ ", requested: " ++ toString ci.quantity

/-- Outcome of the step-1 stock re-check loop: the first cart line whose
variant fetch fails, or the first line with `(variant.stock || 0) < (ci.quantity || 0)`. -/
inductive CheckFailure where
  | fetchFailed (ci : CartItem)
  | short (ci : CartItem) (available : Int)
deriving DecidableEq

/-- Step 1 of `placeOrder`: re-read every line's live variant and find the
first validation failure, mutating nothing. -/
def firstCheckFailure (db : Db) : List CartItem → Option CheckFailure
  | [] => none
  | ci :: rest =>
    match findVariant db ci.product_variant_id with
    | none => some (CheckFailure.fetchFailed ci)
    | some v =>
      if jsOrInt v.stock 0 < jsOrInt ci.quantity 0 then some (CheckFailure.short ci v.stock)
      else firstCheckFailure db rest

/-- Step 2 of `placeOrder`: deduct each line's quantity from its variant,
one row at a time, re-reading the live row before each write and collecting
the owning product ids
(`newStock = Math.max(0, (variant.stock || 0) - (ci.quantity || 0))`). -/
def deductLoop (db : Db) (pids : List Nat) : List CartItem → Db × List Nat
  | [] => (db, pids)
  | ci :: rest =>
    match findVariant db ci.product_variant_id with
    | none => deductLoop db pids rest
    | some v =>
      deductLoop (updateVariantStock db v.id (max 0 (jsOrInt v.stock 0 - jsOrInt ci.quantity 0)))
        (insertUnique pids v.product_id) rest

/-- `Number(it.products?.price || 0)`: the price charged for a cart line. -/
def linePrice (ci : CartItem) : Rat :=
  match ci.products with
  | none => 0
  | some p => jsOrRat p.price 0

/-- Step 3: `cartItems.reduce((s, it) => s + Number(it.products?.price || 0) * (it.quantity || 1), 0)`. -/
def cartTotal (items : List CartItem) : Rat :=
  items.foldl (fun s ci => s + linePrice ci * ((jsOrInt ci.quantity 1 : Int) : Rat)) 0

/-- Card-confirmation result passed into `placeOrder`
(`paymentDetails: { id: paymentIntent.id, status: paymentIntent.status }`). -/
structure PaymentDetails where
  id : Option String
  status : String
deriving DecidableEq

/-- `paymentDetails && paymentDetails.status === "succeeded" ? "paid" : "pending"`. -/
def paymentStatusOf (pd : Option PaymentDetails) : String :=
  match pd with
  | some d => if d.status = "succeeded" then "paid" else "pending"
  | none => "pending"

/-- `transaction_id: paymentDetails?.id || null`. -/
def transactionIdOf (pd : Option PaymentDetails) : Option String :=
  match pd with
  | none => none
  | some d =>
    match d.id with
    | none => none
    | some s => if s = "" then none else some s

/-- Inline address passed from the checkout form (`profile_address`). -/
structure ProfileAddress where
  full_name : String
  phone : String
  address_line : String
deriving DecidableEq

/-- The shipping snapshot columns written into the `orders` row. -/
structure ShippingSnapshot where
  shipping_address_id : Option Nat
  shipping_label : Option String
  shipping_full_name : Option String
  shipping_phone : Option String
  shipping_address_line : Option String
  shipping_city : Option String
  shipping_province : Option String
  shipping_postal_code : Option String
deriving DecidableEq

/-- The all-null initial `shippingSnapshot`. -/
def emptyShipping : ShippingSnapshot :=
  { shipping_address_id := none, shipping_label := none, shipping_full_name := none,
    shipping_phone := none, shipping_address_line := none, shipping_city := none,
    shipping_province := none, shipping_postal_code := none }

/-- Step 4: resolve the shipping snapshot from a saved address id, else from
the inline profile address, else leave every field null. -/
def resolveShipping (db : Db) (shipping_address_id : Option Nat)
    (profile_address : Option ProfileAddress) : ShippingSnapshot :=
  if jsTruthyId shipping_address_id then
    match shipping_address_id.bind (findAddress db) with
    | some addr =>
      { shipping_address_id := some addr.id, shipping_label := some addr.label,
        shipping_full_name := some addr.full_name, shipping_phone := some addr.phone,
        shipping_address_line := some addr.address_line, shipping_city := some addr.city,
        shipping_province := some addr.province, shipping_postal_code := some addr.postal_code }
    | none => emptyShipping
  else
    match profile_address with
    | some pa =>
      { emptyShipping with
        shipping_full_name := some pa.full_name,
        shipping_phone := some pa.phone, shipping_address_line := some pa.address_line }
    | none => emptyShipping

/-- The argument object of `placeOrder` with its source defaults. -/
structure PlaceArgs where
  shipping_address_id : Option Nat := none
  profile_address : Option ProfileAddress := none
  payment_method : String := "cod"
  paymentDetails : Option PaymentDetails := none
deriving DecidableEq

/-- Step 6 payload: the per-line `order_items` snapshot row. -/
def orderItemSnapshot (oid : Nat) (ci : CartItem) : OrderItem :=
  { order_id := oid,
    product_id := ci.product_id,
    product_variant_id := some ci.product_variant_id,
    quantity := ci.quantity,
    price := linePrice ci,
    name := jsOrStr (ci.products.map (fun p => p.name)) "",
    color := jsOrStr (ci.product_variants.map (fun v => v.color)) "",
    size := jsOrStr (ci.product_variants.map (fun v => v.size)) "",
    img_url := jsOrStr (ci.product_variants.map (fun v => v.img_url))
      (jsOrStr (ci.products.map (fun p => p.img_url)) "https://via.placeholder.com/100") }

/-- How a `placeOrder` call ended (each abort corresponds to a source `alert`). -/
inductive PlaceResult where
  | noUser
  | emptyCart
  | checkError (msg : String)
  | placed (order : Order)
deriving DecidableEq

/-- Steps 2-8 of `placeOrder`, reached once the cart is non-empty and the
stock re-check found no failure: deduct stock, recompute aggregates, insert
the order with its snapshots, insert the payment row, clear the cart. -/
def placeOrderCommit (db : Db) (uid : Nat) (cartItems : List CartItem) (cartId : Nat)
    (args : PlaceArgs) : Db × Order :=
  let step2 := deductLoop db [] cartItems
  let db2 := recalcProducts step2.1 step2.2
  let total := cartTotal cartItems
  let snap := resolveShipping db2 args.shipping_address_id args.profile_address
  let order : Order :=
    { id := db2.nextId, user_id := uid, total := total, status := "processing",
      payment_status := paymentStatusOf args.paymentDetails,
      payment_method := args.payment_method,
      shipping_address_id := snap.shipping_address_id,
      shipping_label := snap.shipping_label,
      shipping_full_name := snap.shipping_full_name,
      shipping_phone := snap.shipping_phone,
      shipping_address_line := snap.shipping_address_line,
      shipping_city := snap.shipping_city,
      shipping_province := snap.shipping_province,
      shipping_postal_code := snap.shipping_postal_code }
  let db3 := { db2 with orders := db2.orders ++ [order], nextId := db2.nextId + 1 }
  let db4 := { db3 with order_items :=
    db3.order_items ++ cartItems.map (orderItemSnapshot order.id) }
  let pay : Payment :=
    { order_id := order.id, amount := total, method := args.payment_method,
      status := paymentStatusOf args.paymentDetails,
      transaction_id := transactionIdOf args.paymentDetails }
  let db5 := { db4 with payments := db4.payments ++ [pay] }
  let db6 := { db5 with cart_items := db5.cart_items.filter (fun r => r.cart_id != cartId) }
  (db6, order)

/-- `placeOrder` (customerhomepage.jsx lines 687-836): validate, deduct stock,
recompute aggregates, snapshot the cart into an order + order items + one
payment row, and clear the cart. -/
def placeOrder (db : Db) (user : Option Nat) (cartItems : List CartItem) (cartId : Nat)
    (args : PlaceArgs) : Db × PlaceResult :=
  match user with
  | none => (db, PlaceResult.noUser)
  | some uid =>
    if cartItems.isEmpty then (db, PlaceResult.emptyCart)
    else
      match firstCheckFailure db cartItems with
      | some (CheckFailure.fetchFailed _) =>
        (db, PlaceResult.checkError "Failed to validate stock for an item. Try again.")
      | some (CheckFailure.short ci avail) =>
        (db, PlaceResult.checkError (shortfallMsg ci avail))
      | none =>
        let committed := placeOrderCommit db uid cartItems cartId args
        (committed.1, PlaceResult.placed committed.2)

/-! ### Customer cancellation (`cancelOrder`, customerhomepage.jsx lines 629-682) -/

/-- How a `cancelOrder` call ended. -/
inductive CancelResult where
  | invalidId
  | rejected
  | cancelled
deriving DecidableEq

/-- The stock-restore loop of the customer cancel path: skips lines whose
`product_variant_id` is JS-falsy (`if (!it.product_variant_id) continue`),
re-reads the live variant and writes
`Number(variant.stock || 0) + Number(it.quantity || 0)`. -/
def restockCancelLoop (db : Db) (pids : List Nat) : List OrderItem → Db × List Nat
  | [] => (db, pids)
  | it :: rest =>
    if jsTruthyId it.product_variant_id = false then restockCancelLoop db pids rest
    else
      match it.product_variant_id.bind (findVariant db) with
      | none => restockCancelLoop db pids rest
      | some v =>
        restockCancelLoop (updateVariantStock db v.id (jsOrInt v.stock 0 + jsOrInt it.quantity 0))
          (insertUnique pids v.product_id) rest

/-- `cancelOrder` (customer path): reject when the current status is exactly
`cancelled`, `delivered` or `shipping` after lowercasing
(`(ord?.status || "").toLowerCase()`); otherwise set the status to
`cancelled`, restore the variant stock of every order line and recompute the
affected products' aggregates. Only the confirmed-dialog path is modelled. -/
def cancelOrder (db : Db) (orderId : Nat) : Db × CancelResult :=
  if orderId = 0 then (db, CancelResult.invalidId)
  else
    let current := jsToLower (jsOrStr ((findOrder db orderId).map (fun o => o.status)) "")
    if current = "cancelled" ∨ current = "delivered" ∨ current = "shipping" then
      (db, CancelResult.rejected)
    else
      let db1 := setOrderStatus db orderId "cancelled"
      let step := restockCancelLoop db1 [] (orderItemsOf db1 orderId)
      (recalcProducts step.1 step.2, CancelResult.cancelled)

/-! ### Admin status update and deletion (admin.jsx lines 139-210) -/

/-- How an admin `updateStatus` call ended. -/
inductive AdminResult where
  | notFound
  | ok
deriving DecidableEq

/-- The stock-restore loop of the admin paths: no falsiness guard, the
variant is looked up directly by `it.product_variant_id` (a null id simply
matches no row), then `Number(variant.stock || 0) + Number(it.quantity || 0)`
is written back. -/
def restockAdminLoop (db : Db) (pids : List Nat) : List OrderItem → Db × List Nat
  | [] => (db, pids)
  | it :: rest =>
    match it.product_variant_id.bind (findVariant db) with
    | none => restockAdminLoop db pids rest
    | some v =>
      restockAdminLoop (updateVariantStock db v.id (jsOrInt v.stock 0 + jsOrInt it.quantity 0))
        (insertUnique pids v.product_id) rest

/-- `updateStatus` (admin.jsx lines 139-177): persist the new status verbatim,
then restore stock (and recompute aggregates) exactly when the lowercased
target is `cancelled` and the lowercased previous status was `pending` or
`processing`. (`status || ""` is the identity on the embedded total string.) -/
def updateStatus (db : Db) (orderId : Nat) (newStatus : String) : Db × AdminResult :=
  match findOrder db orderId with
  | none => (db, AdminResult.notFound)
  | some currentOrder =>
    let prevStatus := jsToLower currentOrder.status
    let targetStatus := jsToLower newStatus
    let db1 := setOrderStatus db orderId newStatus
    if targetStatus = "cancelled" ∧ (prevStatus = "pending" ∨ prevStatus = "processing") then
      let step := restockAdminLoop db1 [] (orderItemsOf db1 orderId)
      (recalcProducts step.1 step.2, AdminResult.ok)
    else (db1, AdminResult.ok)

/-! ### Admin product edit (`handleEditSave`, admin.jsx lines 288-343) and
product deletion (admin.jsx lines 279-283) -/

/-- A variant entry of the edit modal. `imgFile` models a pending upload by
the public URL the storage collaborator returns for it. -/
structure EditVariant where
  id : Option Nat
  color : String
  size : String
  stock : Int
  img_url : String
  imgFile : Option String
deriving DecidableEq

/-- The product under edit (`editingProduct`): the row fields that are spread
back into the `products` update, plus the variant list. -/
structure EditingProduct where
  id : Nat
  name : String
  price : Rat
  stock : Int
  variants : List EditVariant
deriving DecidableEq

/-- How a `handleEditSave` call ended. -/
inductive EditResult where
  | noVariants
  | ok
deriving DecidableEq

/-- The upload step: when a variant has a pending `imgFile`, its `img_url`
is replaced by the uploaded file's public URL. -/
def resolvedVariants (ep : EditingProduct) : List EditVariant :=
  ep.variants.map (fun v =>
    match v.imgFile with
    | some u => { v with img_url := u }
    | none => v)

/-- `supabase.from("product_variants").update(variantPayload).eq("id", variant.id)`. -/
def updateVariantRow (db : Db) (vid : Nat) (pid : Nat) (v : EditVariant) : Db :=
  { db with variants :=
      db.variants.map (fun w =>
        if w.id == vid then
          { w with product_id := pid, color := v.color, size := v.size,
                   stock := v.stock, img_url := v.img_url }
        else w) }

/-- The per-variant update pass: variants with a JS-truthy `id` update their
existing row in place (`if (variant.id)`), the rest are collected for insertion. -/
def applyVariantUpdates (pid : Nat) (db : Db) : List EditVariant → Db
  | [] => db
  | v :: rest =>
    if jsTruthyId v.id then
      applyVariantUpdates pid (updateVariantRow db (v.id.getD 0) pid v) rest
    else applyVariantUpdates pid db rest

/-- `supabase.from("product_variants").insert(variantsToInsert)`: each new
payload becomes a fresh row with a backend-assigned id. -/
def insertNewVariants (pid : Nat) (db : Db) : List EditVariant → Db
  | [] => db
  | v :: rest =>
    insertNewVariants pid
      { db with
        variants := db.variants ++
          [{ id := db.nextId, product_id := pid, color := v.color, size := v.size,
             stock := v.stock, img_url := v.img_url }],
        nextId := db.nextId + 1 } rest

/-- `handleEditSave` (admin.jsx lines 288-343): update existing variants,
update the product row (with the recomputed main image), delete removed
variants, insert the new ones and recompute the product's aggregate stock.
Only the `products` and `product_variants` tables are written. -/
def handleEditSave (db : Db) (ep : EditingProduct) : Db × EditResult :=
  if ep.variants.isEmpty then (db, EditResult.noVariants)
  else
    let rv := resolvedVariants ep
    let db1 := applyVariantUpdates ep.id db rv
    let inserts := rv.filter (fun v => jsTruthyId v.id = false)
    let mainImgUrl := jsOrStr (rv.head?.map (fun v => v.img_url))
      (jsOrStr (inserts.head?.map (fun v => v.img_url)) "")
    let newProducts := db1.products.map (fun p =>
      if p.id == ep.id then
        { p with name := ep.name, price := ep.price, stock := ep.stock,
                 img_url := mainImgUrl }
      else p)
    let db2 := { db1 with products := newProducts }
    let existingIds := rv.filterMap (fun v => if jsTruthyId v.id then v.id else none)
    let currentIds := (db2.variants.filter (fun v => v.product_id == ep.id)).map (fun v => v.id)
    let idsToDelete := currentIds.filter (fun i => !(existingIds.contains i))
    let db3 := { db2 with variants := db2.variants.filter (fun v => !(idsToDelete.contains v.id)) }
    let db4 := insertNewVariants ep.id db3 inserts
    (recalcProduct db4 ep.id, EditResult.ok)

/-- `deleteProduct` (admin.jsx lines 279-283): deletes the product row; per
the code's own confirmation text the backend cascade also deletes its
variants. No other table is touched. -/
def deleteProduct (db : Db) (pid : Nat) : Db :=
  { db with products := db.products.filter (fun p => p.id != pid),
            variants := db.variants.filter (fun v => v.product_id != pid) }

/-! ### Payment relay (server.cjs and api/create-payment-intent.js) -/

/-- A JSON value sitting in the `amount` field after `JSON.parse`: a numeric
value, or the result `NaN` of coercing a non-numeric one. -/
inductive JsNum where
  | nan
  | num (q : Rat)
deriving DecidableEq

/-- The parsed request payload `{amount, currency?, email?, fullName?, userId?}`. -/
structure IntentPayload where
  amount : Option JsNum := none
  currency : Option String := none
  email : Option String := none
  fullName : Option String := none
  userId : Option String := none
deriving DecidableEq

/-- `JSON.parse("{}")`: the payload of an entirely absent body. -/
def emptyIntentPayload : IntentPayload := {}

/-- `Number(payload.amount || 0)`: a missing, `NaN` or zero amount is falsy
and replaced by `0`; any other number passes through unchanged. -/
def coercedAmount (a : Option JsNum) : Rat :=
  match a with
  | some (JsNum.num q) => q
  | _ => 0

/-- The request body as the relay's `req.on("data"/"end")` accumulation sees
it: empty, valid JSON, or text that makes `JSON.parse` throw (carrying the
thrown `SyntaxError` message). -/
inductive BodyModel where
  | empty
  | json (p : IntentPayload)
  | malformed (errMsg : String)
deriving DecidableEq

/-- The external payment processor's answer to
`stripe.paymentIntents.create(...)`, treated as an opaque collaborator. -/
inductive StripeOutcome where
  | ok (clientSecret : String) (intentId : String)
  | err (msg : String)
deriving DecidableEq

/-- The serialized response body, one constructor per `res.end(...)` shape. -/
inductive RelayBody where
  | empty
  | text (s : String)
  | jsonError (msg : String)
  | jsonOk (clientSecret : String) (intentId : String)
  | jsonHealth
deriving DecidableEq

/-- What `res.writeHead` + `res.end` produced. -/
structure RelayResponse where
  status : Nat
  headers : List (String × String)
  body : RelayBody
deriving DecidableEq

/-- The `defaultHeaders` CORS header object shared by both relay files. -/
def defaultHeaders : List (String × String) :=
  [("Content-Type", "application/json"),
   ("Access-Control-Allow-Origin", "*"),
   ("Access-Control-Allow-Methods", "GET,POST,OPTIONS"),
   ("Access-Control-Allow-Headers", "Content-Type")]

/-- The validated-and-forwarded part shared by both relay files: reject with
400 `Invalid amount` when `!amount || amount <= 0`, otherwise call the
processor and relay its success or its error (the error message passing
through `catchMsg`, which differs between the two files). The boolean
records whether the processor was called. -/
def processIntentPayload (catchMsg : String → String) (p : IntentPayload)
    (stripe : StripeOutcome) : RelayResponse × Bool :=
  let amount := coercedAmount p.amount
  if amount = 0 ∨ amount ≤ 0 then
    ({ status := 400, headers := defaultHeaders, body := RelayBody.jsonError "Invalid amount" },
      false)
  else
    match stripe with
    | StripeOutcome.ok cs iid =>
      ({ status := 200, headers := defaultHeaders, body := RelayBody.jsonOk cs iid }, true)
    | StripeOutcome.err m =>
      ({ status := 500, headers := defaultHeaders, body := RelayBody.jsonError (catchMsg m) },
        true)

/-- Body handling of `POST /create-payment-intent`: an empty body is parsed
as `{}`; a malformed one makes `JSON.parse` throw into the same catch block
that wraps the processor call, yielding a 500 without any processor call. -/
def intentBody (catchMsg : String → String) (b : BodyModel) (stripe : StripeOutcome) :
    RelayResponse × Bool :=
  match b with
  | BodyModel.malformed m =>
    ({ status := 500, headers := defaultHeaders, body := RelayBody.jsonError (catchMsg m) },
      false)
  | BodyModel.empty => processIntentPayload catchMsg emptyIntentPayload stripe
  | BodyModel.json p => processIntentPayload catchMsg p stripe

/-- An incoming HTTP request as the relay inspects it. -/
structure HttpRequest where
  method : String
  url : String
  body : BodyModel
deriving DecidableEq

/-- The standalone relay server (server.cjs lines 10-68): `OPTIONS` gets 204
with the CORS headers and no body; `POST /create-payment-intent` is handled
(catch responds with the raw `err.message`); `GET /health` returns the
health JSON; anything else falls through to `res.writeHead(404)` with the
plain-text body `Not found` and no headers. -/
def serverHandler (req : HttpRequest) (stripe : StripeOutcome) : RelayResponse × Bool :=
  if req.method = "OPTIONS" then
    ({ status := 204, headers := defaultHeaders, body := RelayBody.empty }, false)
  else if req.method = "POST" ∧ req.url = "/create-payment-intent" then
    intentBody (fun m => m) req.body stripe
  else if req.method = "GET" ∧ req.url = "/health" then
    ({ status := 200, headers := [("Content-Type", "application/json")],
       body := RelayBody.jsonHealth }, false)
  else
    ({ status := 404, headers := [], body := RelayBody.text "Not found" }, false)

/-- The serverless relay handler (api/create-payment-intent.js): routed by
method only. `OPTIONS` gets 204/CORS/empty; any other non-`POST` method gets
404 with JSON `{error: "Not found"}`; with no processor credential every
`POST` gets a 500 before the body is read; otherwise the shared body handling
runs, its catch responding with `err.message || "Internal error"`. -/
def apiHandler (method : String) (hasSecret : Bool) (body : BodyModel)
    (stripe : StripeOutcome) : RelayResponse × Bool :=
  if method = "OPTIONS" then
    ({ status := 204, headers := defaultHeaders, body := RelayBody.empty }, false)
  else if method ≠ "POST" then
    ({ status := 404, headers := defaultHeaders, body := RelayBody.jsonError "Not found" }, false)
  else if hasSecret = false then
    ({ status := 500, headers := defaultHeaders,
       body := RelayBody.jsonError "Stripe secret key not configured on server" }, false)
  else
    intentBody (fun m => jsOrStr (some m) "Internal error") body stripe

/-! ### Concrete instances used by witnesses, counterexamples and
code-behaviour evaluations -/

/-- The empty database (fresh ids start at 1). -/
def emptyDb : Db :=
  { variants := [], products := [], orders := [], order_items := [], payments := [],
    cart_items := [], user_addresses := [], nextId := 1 }

/-- An all-default order row, for building concrete orders. -/
def baseOrder : Order :=
  { id := 0, user_id := 0, total := 0, status := "", payment_status := "",
    payment_method := "", shipping_address_id := none, shipping_label := none,
    shipping_full_name := none, shipping_phone := none, shipping_address_line := none,
    shipping_city := none, shipping_province := none, shipping_postal_code := none }

/-- An all-default order-item row, for building concrete order items. -/
def baseOrderItem : OrderItem :=
  { order_id := 0, product_id := 0, product_variant_id := none, quantity := 0, price := 0,
    name := "", color := "", size := "", img_url := "" }

/-- C1 failing input: order 7 has the legacy status `Shipped` (already handed
to the courier), one line of quantity 2 on variant 101 (current stock 3). -/
def c1Db : Db :=
  { emptyDb with
    variants := [{ id := 101, product_id := 11, color := "Black", size := "M",
                   stock := 3, img_url := "" }],
    products := [{ id := 11, name := "Cap", price := 10, stock := 3, img_url := "" }],
    orders := [{ baseOrder with id := 7, user_id := 1, status := "Shipped" }],
    order_items := [{ baseOrderItem with
                      order_id := 7, product_id := 11,
                      product_variant_id := some 101, quantity := 2 }] }

/-- C4 failing input: order 8 has the legacy status `canceled`, order 9 the
legacy status `successful` (a delivered synonym) with one line of quantity 4
on variant 201 (current stock 1). -/
def c4Db : Db :=
  { emptyDb with
    variants := [{ id := 201, product_id := 21, color := "Red", size := "L",
                   stock := 1, img_url := "" }],
    products := [{ id := 21, name := "Visor", price := 8, stock := 1, img_url := "" }],
    orders := [{ baseOrder with id := 8, user_id := 1, status := "canceled" },
               { baseOrder with id := 9, user_id := 1, status := "successful" }],
    order_items := [{ baseOrderItem with
                      order_id := 9, product_id := 21,
                      product_variant_id := some 201, quantity := 4 }] }

/-- A concrete two-variant catalog for the checkout witnesses. -/
def wDb : Db :=
  { emptyDb with
    variants := [{ id := 301, product_id := 31, color := "Black", size := "M",
                   stock := 5, img_url := "" },
                 { id := 302, product_id := 31, color := "Blue", size := "S",
                   stock := 4, img_url := "" }],
    products := [{ id := 31, name := "Bucket Hat", price := 12, stock := 9, img_url := "" }],
    cart_items := [{ id := 1, cart_id := 77 }],
    nextId := 400 }

/-- A concrete cart line: 2 units of variant 301. -/
def wItem : CartItem :=
  { id := 1, product_id := 31, product_variant_id := 301, quantity := 2,
    products := some { name := "Bucket Hat", price := 12, img_url := "" },
    product_variants := some { color := "Black", size := "M", img_url := "" } }

/-- A concrete cart line requesting more (7) than variant 302 stocks (4). -/
def wShortItem : CartItem :=
  { id := 2, product_id := 31, product_variant_id := 302, quantity := 7,
    products := some { name := "Bucket Hat", price := 12, img_url := "" },
    product_variants := some { color := "Blue", size := "S", img_url := "" } }

/-- Concrete `placeOrder` arguments: a card payment whose confirmation
reports `succeeded` with a non-empty transaction id. -/
def wArgs : PlaceArgs :=
  { payment_method := "card",
    paymentDetails := some { id := some "pi_123", status := "succeeded" } }

/-- C6 counterexample arguments: the confirmation carries a present but
empty-string id, which `paymentDetails?.id || null` maps to null. -/
def c6Args : PlaceArgs :=
  { payment_method := "card",
    paymentDetails := some { id := some "", status := "succeeded" } }

/-- C5 witness world: order 41 is currently `Shipping` with one line of
quantity 3 on variant 301. -/
def c5Db : Db :=
  { wDb with
    orders := [{ baseOrder with id := 41, user_id := 1, status := "Shipping" }],
    order_items := [{ baseOrderItem with
                      order_id := 41, product_id := 31,
                      product_variant_id := some 301, quantity := 3 }] }

/-- C5 witness world with the order still `processing`. -/
def c5ProcDb : Db :=
  { wDb with
    orders := [{ baseOrder with id := 42, user_id := 1, status := "processing" }],
    order_items := [{ baseOrderItem with
                      order_id := 42, product_id := 31,
                      product_variant_id := some 301, quantity := 3 }] }

/-- Stated from the spec sentence for C6 (not from the code): the order
total is the sum over cart line items of the line's product price times the
item quantity. -/
def specTotal (items : List CartItem) : Rat :=
  (items.map (fun ci =>
    (match ci.products with
     | some p => p.price
     | none => 0) * (ci.quantity : Rat))).sum

/-- C8 witness payload: `{amount: 0}`. -/
def c8Payload : IntentPayload := { amount := some (JsNum.num 0) }

/-- The order row of `c5Db` (status `Shipping`). -/
def c5Order : Order := { baseOrder with id := 41, user_id := 1, status := "Shipping" }

/-- The order row of `c5ProcDb` (status `processing`). -/
def c5ProcOrder : Order := { baseOrder with id := 42, user_id := 1, status := "processing" }

/-! ### Helper lemmas -/

@[simp] theorem jsOrInt_zero (x : Int) : jsOrInt x 0 = x := by
  unfold jsOrInt; split <;> simp_all

@[simp] theorem jsOrRat_zero (x : Rat) : jsOrRat x 0 = x := by
  unfold jsOrRat; split <;> simp_all

/-- Mapping a row transformer that preserves the searched key commutes with
`find?`. -/
theorem find?_map_pres {α : Type} (p : α → Bool) (f : α → α)
    (hf : ∀ a, p (f a) = p a) : ∀ l : List α, (l.map f).find? p = (l.find? p).map f := by
  intro l
  induction l with
  | nil => rfl
  | cons a l ih =>
    simp only [List.map_cons]
    cases h : p a with
    | true =>
      rw [List.find?_cons_of_pos _ (by rw [hf]; exact h), List.find?_cons_of_pos _ h]
      rfl
    | false =>
      rw [List.find?_cons_of_neg _ (by simp [hf, h]), List.find?_cons_of_neg _ (by simp [h]), ih]

theorem findVariant_id {db : Db} {vid : Nat} {v : Variant}
    (h : findVariant db vid = some v) : v.id = vid := by
  have := List.find?_some h
  simpa using this

theorem findProduct_id {db : Db} {pid : Nat} {p : Product}
    (h : findProduct db pid = some p) : p.id = pid := by
  have := List.find?_some h
  simpa using this

theorem findVariant_updateVariantStock (db : Db) (i : Nat) (s : Int) (j : Nat) :
    findVariant (updateVariantStock db i s) j =
      (findVariant db j).map (fun v => if v.id == i then { v with stock := s } else v) := by
  unfold findVariant updateVariantStock
  exact find?_map_pres _ _ (fun a => by cases h : a.id == i <;> simp [h]) db.variants

theorem findVariant_update_self (db : Db) (i : Nat) (s : Int) :
    findVariant (updateVariantStock db i s) i =
      (findVariant db i).map (fun v => { v with stock := s }) := by
  rw [findVariant_updateVariantStock]
  cases h : findVariant db i with
  | none => rfl
  | some v => simp [findVariant_id h]

theorem findVariant_update_ne (db : Db) {i j : Nat} (s : Int) (h : j ≠ i) :
    findVariant (updateVariantStock db i s) j = findVariant db j := by
  rw [findVariant_updateVariantStock]
  cases hf : findVariant db j with
  | none => rfl
  | some v => simp [findVariant_id hf, h]

theorem findProduct_recalcProduct (db : Db) (q : Nat) (j : Nat) :
    findProduct (recalcProduct db q) j =
      (findProduct db j).map
        (fun p => if p.id == q then { p with stock := variantStockSum db.variants q } else p) := by
  unfold findProduct recalcProduct
  exact find?_map_pres _ _ (fun a => by cases h : a.id == q <;> simp [h]) db.products

theorem findProduct_recalcProduct_self (db : Db) (q : Nat) :
    findProduct (recalcProduct db q) q =
      (findProduct db q).map (fun p => { p with stock := variantStockSum db.variants q }) := by
  rw [findProduct_recalcProduct]
  cases h : findProduct db q with
  | none => rfl
  | some p => simp [findProduct_id h]

theorem findProduct_recalcProduct_ne (db : Db) {q j : Nat} (h : j ≠ q) :
    findProduct (recalcProduct db q) j = findProduct db j := by
  rw [findProduct_recalcProduct]
  cases hf : findProduct db j with
  | none => rfl
  | some p => simp [findProduct_id hf, h]

@[simp] theorem updateVariantStock_products (db : Db) (i : Nat) (s : Int) :
    (updateVariantStock db i s).products = db.products := rfl

@[simp] theorem updateVariantStock_orders (db : Db) (i : Nat) (s : Int) :
    (updateVariantStock db i s).orders = db.orders := rfl

@[simp] theorem updateVariantStock_order_items (db : Db) (i : Nat) (s : Int) :
    (updateVariantStock db i s).order_items = db.order_items := rfl

@[simp] theorem recalcProduct_variants (db : Db) (q : Nat) :
    (recalcProduct db q).variants = db.variants := rfl

@[simp] theorem recalcProduct_orders (db : Db) (q : Nat) :
    (recalcProduct db q).orders = db.orders := rfl

@[simp] theorem recalcProduct_order_items (db : Db) (q : Nat) :
    (recalcProduct db q).order_items = db.order_items := rfl

@[simp] theorem updateVariantStock_payments (db : Db) (i : Nat) (s : Int) :
    (updateVariantStock db i s).payments = db.payments := rfl

@[simp] theorem recalcProduct_payments (db : Db) (q : Nat) :
    (recalcProduct db q).payments = db.payments := rfl

@[simp] theorem setOrderStatus_variants (db : Db) (oid : Nat) (st : String) :
    (setOrderStatus db oid st).variants = db.variants := rfl

@[simp] theorem setOrderStatus_products (db : Db) (oid : Nat) (st : String) :
    (setOrderStatus db oid st).products = db.products := rfl

@[simp] theorem setOrderStatus_order_items (db : Db) (oid : Nat) (st : String) :
    (setOrderStatus db oid st).order_items = db.order_items := rfl

theorem recalcProducts_nil (db : Db) : recalcProducts db [] = db := rfl

theorem recalcProducts_cons (db : Db) (q : Nat) (qs : List Nat) :
    recalcProducts db (q :: qs) = recalcProducts (recalcProduct db q) qs := rfl

@[simp] theorem recalcProducts_variants (qs : List Nat) :
    ∀ db : Db, (recalcProducts db qs).variants = db.variants := by
  induction qs with
  | nil => intro db; rfl
  | cons q qs ih => intro db; rw [recalcProducts_cons, ih]; rfl

@[simp] theorem recalcProducts_orders (qs : List Nat) :
    ∀ db : Db, (recalcProducts db qs).orders = db.orders := by
  induction qs with
  | nil => intro db; rfl
  | cons q qs ih => intro db; rw [recalcProducts_cons, ih]; rfl

@[simp] theorem recalcProducts_order_items (qs : List Nat) :
    ∀ db : Db, (recalcProducts db qs).order_items = db.order_items := by
  induction qs with
  | nil => intro db; rfl
  | cons q qs ih => intro db; rw [recalcProducts_cons, ih]; rfl

theorem findVariant_ext {db db' : Db} (h : db'.variants = db.variants) (vid : Nat) :
    findVariant db' vid = findVariant db vid := by
  unfold findVariant; rw [h]

theorem findProduct_ext {db db' : Db} (h : db'.products = db.products) (pid : Nat) :
    findProduct db' pid = findProduct db pid := by
  unfold findProduct; rw [h]

theorem mem_insertUnique (l : List Nat) (x : Nat) : x ∈ insertUnique l x := by
  unfold insertUnique
  split
  · assumption
  · simp

theorem insertUnique_mono {l : List Nat} {x : Nat} (y : Nat) (h : x ∈ l) :
    x ∈ insertUnique l y := by
  unfold insertUnique
  split
  · assumption
  · simp [h]

/-- Unfolding equations for the re-check loop. -/
theorem firstCheckFailure_cons_none (db : Db) (c : CartItem) (rest : List CartItem)
    (h : findVariant db c.product_variant_id = none) :
    firstCheckFailure db (c :: rest) = some (CheckFailure.fetchFailed c) := by
  simp only [firstCheckFailure, h]

theorem firstCheckFailure_cons_some (db : Db) (c : CartItem) (rest : List CartItem)
    (v : Variant) (h : findVariant db c.product_variant_id = some v) :
    firstCheckFailure db (c :: rest) =
      if jsOrInt v.stock 0 < jsOrInt c.quantity 0 then some (CheckFailure.short c v.stock)
      else firstCheckFailure db rest := by
  simp only [firstCheckFailure, h]

/-- Unfolding equations for the deduction loop. -/
theorem deductLoop_cons_none (db : Db) (pids : List Nat) (c : CartItem)
    (rest : List CartItem) (h : findVariant db c.product_variant_id = none) :
    deductLoop db pids (c :: rest) = deductLoop db pids rest := by
  simp only [deductLoop, h]

theorem deductLoop_cons_some (db : Db) (pids : List Nat) (c : CartItem)
    (rest : List CartItem) (v : Variant) (h : findVariant db c.product_variant_id = some v) :
    deductLoop db pids (c :: rest) =
      deductLoop (updateVariantStock db v.id (max 0 (jsOrInt v.stock 0 - jsOrInt c.quantity 0)))
        (insertUnique pids v.product_id) rest := by
  simp only [deductLoop, h]

/-- A stock update never changes which product a variant belongs to. -/
theorem findVariant_update_pid (db : Db) (i : Nat) (s : Int) (j : Nat) :
    ((findVariant (updateVariantStock db i s) j).map (fun v => v.product_id)) =
      ((findVariant db j).map (fun v => v.product_id)) := by
  rw [findVariant_updateVariantStock]
  cases findVariant db j with
  | none => rfl
  | some w =>
    by_cases h : w.id = i <;> simp [h]

/-- A passing stock re-check means every line's variant exists and has
enough stock. -/
theorem firstCheckFailure_none_sound (db : Db) :
    ∀ items : List CartItem, firstCheckFailure db items = none →
      ∀ ci ∈ items, ∃ v, findVariant db ci.product_variant_id = some v ∧
        ¬ v.stock < ci.quantity := by
  intro items
  induction items with
  | nil => intro _ ci hci; cases hci
  | cons c rest ih =>
    intro h ci hci
    cases hv : findVariant db c.product_variant_id with
    | none => rw [firstCheckFailure_cons_none db c rest hv] at h; cases h
    | some v =>
      rw [firstCheckFailure_cons_some db c rest v hv] at h
      by_cases hlt : jsOrInt v.stock 0 < jsOrInt c.quantity 0
      · rw [if_pos hlt] at h; cases h
      · rw [if_neg hlt] at h
        rcases List.mem_cons.mp hci with rfl | hci
        · exact ⟨v, hv, by simpa using hlt⟩
        · exact ih h ci hci

/-- If some line is short of stock, the re-check does not pass. -/
theorem firstCheckFailure_ne_none_of_short (db : Db) :
    ∀ items : List CartItem,
      (∃ ci ∈ items, ∃ v, findVariant db ci.product_variant_id = some v ∧
        v.stock < ci.quantity) →
      firstCheckFailure db items ≠ none := by
  intro items h hnone
  rcases h with ⟨ci, hci, v, hv, hlt⟩
  rcases firstCheckFailure_none_sound db items hnone ci hci with ⟨w, hw, hwle⟩
  rw [hv] at hw
  cases hw
  exact hwle hlt

/-- What a reported shortfall says about the database: the named line is in
the cart, its live variant was read, and the reported availability is that
live stock, strictly below the requested quantity. -/
theorem firstCheckFailure_short_sound (db : Db) :
    ∀ items : List CartItem, ∀ ci : CartItem, ∀ avail : Int,
      firstCheckFailure db items = some (CheckFailure.short ci avail) →
      ci ∈ items ∧ ∃ v, findVariant db ci.product_variant_id = some v ∧
        v.stock = avail ∧ avail < ci.quantity := by
  intro items
  induction items with
  | nil => intro ci avail h; cases h
  | cons c rest ih =>
    intro ci avail h
    cases hv : findVariant db c.product_variant_id with
    | none => rw [firstCheckFailure_cons_none db c rest hv] at h; cases h
    | some v =>
      rw [firstCheckFailure_cons_some db c rest v hv] at h
      by_cases hlt : jsOrInt v.stock 0 < jsOrInt c.quantity 0
      · rw [if_pos hlt] at h
        cases h
        refine ⟨List.mem_cons_self _ _, v, hv, rfl, ?_⟩
        simpa using hlt
      · rw [if_neg hlt] at h
        rcases ih ci avail h with ⟨hmem, hrest⟩
        exact ⟨List.mem_cons_of_mem _ hmem, hrest⟩

/-- When every line's variant fetch succeeds, a failure reported by the
re-check is a shortfall. -/
theorem firstCheckFailure_fail_is_short (db : Db) :
    ∀ items : List CartItem,
      (∀ ci ∈ items, (findVariant db ci.product_variant_id).isSome) →
      ∀ f, firstCheckFailure db items = some f →
      ∃ ci avail, f = CheckFailure.short ci avail := by
  intro items
  induction items with
  | nil => intro _ f h; cases h
  | cons c rest ih =>
    intro hall f h
    cases hv : findVariant db c.product_variant_id with
    | none =>
      have := hall c (List.mem_cons_self _ _)
      rw [hv] at this; cases this
    | some v =>
      rw [firstCheckFailure_cons_some db c rest v hv] at h
      by_cases hlt : jsOrInt v.stock 0 < jsOrInt c.quantity 0
      · rw [if_pos hlt] at h
        cases h
        exact ⟨c, v.stock, rfl⟩
      · rw [if_neg hlt] at h
        exact ih (fun ci hci => hall ci (List.mem_cons_of_mem _ hci)) f h

/-- The deduction loop leaves the `products` table alone. -/
theorem deductLoop_products (items : List CartItem) :
    ∀ db pids, (deductLoop db pids items).1.products = db.products := by
  induction items with
  | nil => intro db pids; rfl
  | cons c rest ih =>
    intro db pids
    cases hv : findVariant db c.product_variant_id with
    | none => rw [deductLoop_cons_none db pids c rest hv]; exact ih db pids
    | some v => rw [deductLoop_cons_some db pids c rest v hv, ih]; rfl

theorem deductLoop_orders (items : List CartItem) :
    ∀ db pids, (deductLoop db pids items).1.orders = db.orders := by
  induction items with
  | nil => intro db pids; rfl
  | cons c rest ih =>
    intro db pids
    cases hv : findVariant db c.product_variant_id with
    | none => rw [deductLoop_cons_none db pids c rest hv]; exact ih db pids
    | some v => rw [deductLoop_cons_some db pids c rest v hv, ih]; rfl

theorem deductLoop_order_items (items : List CartItem) :
    ∀ db pids, (deductLoop db pids items).1.order_items = db.order_items := by
  induction items with
  | nil => intro db pids; rfl
  | cons c rest ih =>
    intro db pids
    cases hv : findVariant db c.product_variant_id with
    | none => rw [deductLoop_cons_none db pids c rest hv]; exact ih db pids
    | some v => rw [deductLoop_cons_some db pids c rest v hv, ih]; rfl

theorem deductLoop_payments (items : List CartItem) :
    ∀ db pids, (deductLoop db pids items).1.payments = db.payments := by
  induction items with
  | nil => intro db pids; rfl
  | cons c rest ih =>
    intro db pids
    cases hv : findVariant db c.product_variant_id with
    | none => rw [deductLoop_cons_none db pids c rest hv]; exact ih db pids
    | some v => rw [deductLoop_cons_some db pids c rest v hv, ih]; rfl

@[simp] theorem recalcProducts_payments (qs : List Nat) :
    ∀ db : Db, (recalcProducts db qs).payments = db.payments := by
  induction qs with
  | nil => intro db; rfl
  | cons q qs ih => intro db; rw [recalcProducts_cons, ih]; rfl

/-- Variants not referenced by any remaining cart line are untouched by the
deduction loop. -/
theorem deductLoop_find_notmem (items : List CartItem) :
    ∀ db pids vid, vid ∉ items.map (fun ci => ci.product_variant_id) →
      findVariant (deductLoop db pids items).1 vid = findVariant db vid := by
  induction items with
  | nil => intro db pids vid _; rfl
  | cons c rest ih =>
    intro db pids vid hvid
    have hne : vid ≠ c.product_variant_id := by
      intro he; exact hvid (by simp [he])
    have hrest : vid ∉ rest.map (fun ci => ci.product_variant_id) := by
      intro hm; exact hvid (List.mem_cons_of_mem _ hm)
    cases hv : findVariant db c.product_variant_id with
    | none => rw [deductLoop_cons_none db pids c rest hv]; exact ih db pids vid hrest
    | some v =>
      rw [deductLoop_cons_some db pids c rest v hv, ih _ _ vid hrest,
        findVariant_update_ne db _ (by rw [findVariant_id hv]; exact hne)]

/-- Each line of a duplicate-free cart ends the deduction loop with its
variant's stock decremented by the requested quantity, floored at zero. -/
theorem deductLoop_stock (items : List CartItem) :
    ∀ db pids,
      (∀ ci ∈ items, (findVariant db ci.product_variant_id).isSome) →
      (items.map (fun ci => ci.product_variant_id)).Nodup →
      ∀ ci ∈ items, ∃ v, findVariant db ci.product_variant_id = some v ∧
        findVariant (deductLoop db pids items).1 ci.product_variant_id =
          some { v with stock := max 0 (v.stock - ci.quantity) } := by
  induction items with
  | nil => intro db pids _ _ ci hci; cases hci
  | cons c rest ih =>
    intro db pids hex hnd ci hci
    have hvex := hex c (List.mem_cons_self _ _)
    cases hv : findVariant db c.product_variant_id with
    | none => rw [hv] at hvex; cases hvex
    | some v =>
      have hvid := findVariant_id hv
      have hnotm : c.product_variant_id ∉ rest.map (fun x => x.product_variant_id) := by
        have h := hnd
        simp only [List.map_cons, List.nodup_cons] at h
        exact h.1
      rcases List.mem_cons.mp hci with rfl | hci
      · refine ⟨v, hv, ?_⟩
        rw [deductLoop_cons_some db pids ci rest v hv,
          deductLoop_find_notmem rest _ _ _ hnotm, hvid, findVariant_update_self, hv]
        simp [hvid]
      · have hne : ci.product_variant_id ≠ c.product_variant_id := by
          intro he
          exact hnotm (by rw [← he]; exact List.mem_map_of_mem _ hci)
        have hstep : findVariant
            (updateVariantStock db v.id (max 0 (jsOrInt v.stock 0 - jsOrInt c.quantity 0)))
            ci.product_variant_id = findVariant db ci.product_variant_id :=
          findVariant_update_ne db _ (by rw [hvid]; exact hne)
        have hex' : ∀ cj ∈ rest,
            (findVariant (updateVariantStock db v.id
              (max 0 (jsOrInt v.stock 0 - jsOrInt c.quantity 0))) cj.product_variant_id).isSome := by
          intro cj hcj
          by_cases hj : cj.product_variant_id = v.id
          · rw [findVariant_updateVariantStock, hj, hvid, hv]
            simp
          · rw [findVariant_update_ne db _ hj]
            exact hex cj (List.mem_cons_of_mem _ hcj)
        have hnd' : (rest.map (fun x => x.product_variant_id)).Nodup := by
          have h := hnd
          simp only [List.map_cons, List.nodup_cons] at h
          exact h.2
        rcases ih _ (insertUnique pids v.product_id) hex' hnd' ci hci with ⟨w, hw, hfin⟩
        refine ⟨w, ?_, ?_⟩
        · rw [← hstep]; exact hw
        · rw [deductLoop_cons_some db pids c rest v hv]
          exact hfin

/-- The collected product-id set only grows along the deduction loop. -/
theorem deductLoop_pids_mono (items : List CartItem) :
    ∀ db pids x, x ∈ pids → x ∈ (deductLoop db pids items).2 := by
  induction items with
  | nil => intro db pids x hx; exact hx
  | cons c rest ih =>
    intro db pids x hx
    cases hv : findVariant db c.product_variant_id with
    | none => rw [deductLoop_cons_none db pids c rest hv]; exact ih db pids x hx
    | some v =>
      rw [deductLoop_cons_some db pids c rest v hv]
      exact ih _ _ x (insertUnique_mono _ hx)

/-- Every product owning a purchased variant ends up in the recalc set. -/
theorem deductLoop_pids_mem (items : List CartItem) :
    ∀ db pids, ∀ ci ∈ items, ∀ pid : Nat,
      (findVariant db ci.product_variant_id).map (fun v => v.product_id) = some pid →
      pid ∈ (deductLoop db pids items).2 := by
  induction items with
  | nil => intro db pids ci hci; cases hci
  | cons c rest ih =>
    intro db pids ci hci pid hpid
    rcases List.mem_cons.mp hci with rfl | hci
    · cases hv : findVariant db ci.product_variant_id with
      | none => rw [hv] at hpid; cases hpid
      | some v =>
        rw [hv] at hpid
        cases hpid
        rw [deductLoop_cons_some db pids ci rest v hv]
        exact deductLoop_pids_mono rest _ _ _ (mem_insertUnique _ _)
    · cases hv : findVariant db c.product_variant_id with
      | none => rw [deductLoop_cons_none db pids c rest hv]; exact ih db pids ci hci pid hpid
      | some v =>
        rw [deductLoop_cons_some db pids c rest v hv]
        refine ih _ _ ci hci pid ?_
        rw [findVariant_update_pid]
        exact hpid

/-- Products outside the recalc set keep their row across the recalc loop. -/
theorem recalcProducts_find_notmem (qs : List Nat) :
    ∀ db pid, pid ∉ qs → findProduct (recalcProducts db qs) pid = findProduct db pid := by
  induction qs with
  | nil => intro db pid _; rfl
  | cons q qs ih =>
    intro db pid hpid
    rw [recalcProducts_cons, ih _ _ (fun h => hpid (List.mem_cons_of_mem _ h)),
      findProduct_recalcProduct_ne db (fun h => hpid (by rw [h]; exact List.mem_cons_self _ _))]

/-- After the recalc loop, every product in the recalc set stores the sum of
its variants' stock (the variants are unchanged by the loop). -/
theorem recalcProducts_stock (qs : List Nat) :
    ∀ db pid, pid ∈ qs →
      ∀ p, findProduct (recalcProducts db qs) pid = some p →
        p.stock = variantStockSum db.variants pid := by
  induction qs with
  | nil => intro db pid hpid; cases hpid
  | cons q qs ih =>
    intro db pid hpid p hp
    rw [recalcProducts_cons] at hp
    by_cases hmem : pid ∈ qs
    · have := ih (recalcProduct db q) pid hmem p hp
      rwa [recalcProduct_variants] at this
    · have hq : pid = q := by
        rcases List.mem_cons.mp hpid with h | h
        · exact h
        · exact absurd h hmem
      subst hq
      rw [recalcProducts_find_notmem qs _ _ hmem, findProduct_recalcProduct_self] at hp
      cases hf : findProduct db pid with
      | none => rw [hf] at hp; cases hp
      | some p0 => rw [hf] at hp; cases hp; rfl

/-! ### Lemmas about the admin restock loop and order lookups -/

theorem findOrder_id {db : Db} {oid : Nat} {o : Order}
    (h : findOrder db oid = some o) : o.id = oid := by
  have := List.find?_some h
  simpa using this

theorem findOrder_setOrderStatus (db : Db) (oid : Nat) (st : String) (j : Nat) :
    findOrder (setOrderStatus db oid st) j =
      (findOrder db j).map (fun o => if o.id == oid then { o with status := st } else o) := by
  unfold findOrder setOrderStatus
  exact find?_map_pres _ _ (fun a => by cases h : a.id == oid <;> simp [h]) db.orders

theorem findOrder_setOrderStatus_self (db : Db) (oid : Nat) (st : String) :
    findOrder (setOrderStatus db oid st) oid =
      (findOrder db oid).map (fun o => { o with status := st }) := by
  rw [findOrder_setOrderStatus]
  cases h : findOrder db oid with
  | none => rfl
  | some o => simp [findOrder_id h]

theorem findOrder_ext {db db' : Db} (h : db'.orders = db.orders) (oid : Nat) :
    findOrder db' oid = findOrder db oid := by
  unfold findOrder; rw [h]

theorem restockAdminLoop_cons_none (db : Db) (pids : List Nat) (it : OrderItem)
    (rest : List OrderItem) (h : it.product_variant_id.bind (findVariant db) = none) :
    restockAdminLoop db pids (it :: rest) = restockAdminLoop db pids rest := by
  simp only [restockAdminLoop, h]

theorem restockAdminLoop_cons_some (db : Db) (pids : List Nat) (it : OrderItem)
    (rest : List OrderItem) (v : Variant)
    (h : it.product_variant_id.bind (findVariant db) = some v) :
    restockAdminLoop db pids (it :: rest) =
      restockAdminLoop (updateVariantStock db v.id (jsOrInt v.stock 0 + jsOrInt it.quantity 0))
        (insertUnique pids v.product_id) rest := by
  simp only [restockAdminLoop, h]

theorem restockAdminLoop_orders (items : List OrderItem) :
    ∀ db pids, (restockAdminLoop db pids items).1.orders = db.orders := by
  induction items with
  | nil => intro db pids; rfl
  | cons it rest ih =>
    intro db pids
    cases hv : it.product_variant_id.bind (findVariant db) with
    | none => rw [restockAdminLoop_cons_none db pids it rest hv]; exact ih db pids
    | some v => rw [restockAdminLoop_cons_some db pids it rest v hv, ih]; rfl

theorem restockAdminLoop_order_items (items : List OrderItem) :
    ∀ db pids, (restockAdminLoop db pids items).1.order_items = db.order_items := by
  induction items with
  | nil => intro db pids; rfl
  | cons it rest ih =>
    intro db pids
    cases hv : it.product_variant_id.bind (findVariant db) with
    | none => rw [restockAdminLoop_cons_none db pids it rest hv]; exact ih db pids
    | some v => rw [restockAdminLoop_cons_some db pids it rest v hv, ih]; rfl

/-- Variants not referenced by any remaining order line are untouched by the
admin restock loop. -/
theorem restockAdminLoop_find_notmem (items : List OrderItem) :
    ∀ db pids vid, vid ∉ items.filterMap (fun it => it.product_variant_id) →
      findVariant (restockAdminLoop db pids items).1 vid = findVariant db vid := by
  induction items with
  | nil => intro db pids vid _; rfl
  | cons it rest ih =>
    intro db pids vid hvid
    have hrest : vid ∉ rest.filterMap (fun x => x.product_variant_id) := by
      intro hm
      refine hvid ?_
      rw [List.filterMap_cons]
      cases it.product_variant_id with
      | none => exact hm
      | some j => exact List.mem_cons_of_mem _ hm
    cases hv : it.product_variant_id.bind (findVariant db) with
    | none => rw [restockAdminLoop_cons_none db pids it rest hv]; exact ih db pids vid hrest
    | some v =>
      rcases Option.bind_eq_some.mp hv with ⟨j, hj, hfv⟩
      have hjm : j ∈ (it :: rest).filterMap (fun x => x.product_variant_id) := by
        rw [List.filterMap_cons, hj]
        exact List.mem_cons_self _ _
      have hne : vid ≠ j := fun he => hvid (he ▸ hjm)
      rw [restockAdminLoop_cons_some db pids it rest v hv, ih _ _ vid hrest,
        findVariant_update_ne db _ (by rw [findVariant_id hfv]; exact hne)]

/-- Each line of a duplicate-free restock run ends with its variant's stock
incremented by the line's quantity. -/
theorem restockAdminLoop_stock (items : List OrderItem) :
    ∀ db pids,
      (items.filterMap (fun it => it.product_variant_id)).Nodup →
      ∀ it ∈ items, ∀ vid, it.product_variant_id = some vid →
        ∀ v, findVariant db vid = some v →
          findVariant (restockAdminLoop db pids items).1 vid =
            some { v with stock := v.stock + it.quantity } := by
  induction items with
  | nil => intro db pids _ it hit; cases hit
  | cons c rest ih =>
    intro db pids hnd it hit vid hvid v hv
    rcases List.mem_cons.mp hit with rfl | hit
    · have hb : it.product_variant_id.bind (findVariant db) = some v := by
        rw [hvid]; exact hv
      have hnotm : vid ∉ rest.filterMap (fun x => x.product_variant_id) := by
        have h := hnd
        rw [List.filterMap_cons, hvid] at h
        exact (List.nodup_cons.mp h).1
      rw [restockAdminLoop_cons_some db pids it rest v hb,
        restockAdminLoop_find_notmem rest _ _ _ hnotm, findVariant_id hv,
        findVariant_update_self, hv]
      simp [findVariant_id hv]
    · cases hb : c.product_variant_id.bind (findVariant db) with
      | none =>
        rw [restockAdminLoop_cons_none db pids c rest hb]
        have hnd' : (rest.filterMap (fun x => x.product_variant_id)).Nodup := by
          cases hc : c.product_variant_id with
          | none => rw [List.filterMap_cons, hc] at hnd; exact hnd
          | some j =>
            rw [List.filterMap_cons, hc] at hnd
            have hnd2 : (j :: rest.filterMap (fun x => x.product_variant_id)).Nodup := hnd
            exact (List.nodup_cons.mp hnd2).2
        exact ih db pids hnd' it hit vid hvid v hv
      | some w =>
        rcases Option.bind_eq_some.mp hb with ⟨j, hj, hfw⟩
        have hjm : vid ∈ rest.filterMap (fun x => x.product_variant_id) :=
          List.mem_filterMap.mpr ⟨it, hit, hvid⟩
        have hndc := hnd
        rw [List.filterMap_cons, hj] at hndc
        have hne : vid ≠ j := fun he => (List.nodup_cons.mp hndc).1 (he ▸ hjm)
        have hstep : findVariant
            (updateVariantStock db w.id (jsOrInt w.stock 0 + jsOrInt c.quantity 0)) vid =
            findVariant db vid :=
          findVariant_update_ne db _ (by rw [findVariant_id hfw]; exact hne)
        rw [restockAdminLoop_cons_some db pids c rest w hb]
        exact ih _ _ (List.nodup_cons.mp hndc).2 it hit vid hvid v (by rw [hstep]; exact hv)

theorem restockAdminLoop_pids_mono (items : List OrderItem) :
    ∀ db pids x, x ∈ pids → x ∈ (restockAdminLoop db pids items).2 := by
  induction items with
  | nil => intro db pids x hx; exact hx
  | cons c rest ih =>
    intro db pids x hx
    cases hv : c.product_variant_id.bind (findVariant db) with
    | none => rw [restockAdminLoop_cons_none db pids c rest hv]; exact ih db pids x hx
    | some v =>
      rw [restockAdminLoop_cons_some db pids c rest v hv]
      exact ih _ _ x (insertUnique_mono _ hx)

/-- Every product owning a restocked variant ends up in the recalc set. -/
theorem restockAdminLoop_pids_mem (items : List OrderItem) :
    ∀ db pids, ∀ it ∈ items, ∀ vid, it.product_variant_id = some vid →
      ∀ pid : Nat, (findVariant db vid).map (fun v => v.product_id) = some pid →
      pid ∈ (restockAdminLoop db pids items).2 := by
  induction items with
  | nil => intro db pids it hit; cases hit
  | cons c rest ih =>
    intro db pids it hit vid hvid pid hpid
    rcases List.mem_cons.mp hit with rfl | hit
    · cases hv : findVariant db vid with
      | none => rw [hv] at hpid; cases hpid
      | some v =>
        rw [hv] at hpid
        cases hpid
        have hb : it.product_variant_id.bind (findVariant db) = some v := by
          rw [hvid]; exact hv
        rw [restockAdminLoop_cons_some db pids it rest v hb]
        exact restockAdminLoop_pids_mono rest _ _ _ (mem_insertUnique _ _)
    · cases hb : c.product_variant_id.bind (findVariant db) with
      | none =>
        rw [restockAdminLoop_cons_none db pids c rest hb]
        exact ih db pids it hit vid hvid pid hpid
      | some w =>
        rw [restockAdminLoop_cons_some db pids c rest w hb]
        refine ih _ _ it hit vid hvid pid ?_
        rw [findVariant_update_pid]
        exact hpid

/-! ### Characterizations of `placeOrder` -/

theorem placeOrder_success (db : Db) (uid : Nat) (items : List CartItem) (cid : Nat)
    (args : PlaceArgs) (hne : items.isEmpty = false)
    (hchk : firstCheckFailure db items = none) :
    placeOrder db (some uid) items cid args =
      ((placeOrderCommit db uid items cid args).1,
        PlaceResult.placed (placeOrderCommit db uid items cid args).2) := by
  simp [placeOrder, hne, hchk]

theorem placeOrder_fetchFailed (db : Db) (uid : Nat) (items : List CartItem) (cid : Nat)
    (args : PlaceArgs) (ci : CartItem) (hne : items.isEmpty = false)
    (hchk : firstCheckFailure db items = some (CheckFailure.fetchFailed ci)) :
    placeOrder db (some uid) items cid args =
      (db, PlaceResult.checkError "Failed to validate stock for an item. Try again.") := by
  simp [placeOrder, hne, hchk]

theorem placeOrder_short (db : Db) (uid : Nat) (items : List CartItem) (cid : Nat)
    (args : PlaceArgs) (ci : CartItem) (avail : Int) (hne : items.isEmpty = false)
    (hchk : firstCheckFailure db items = some (CheckFailure.short ci avail)) :
    placeOrder db (some uid) items cid args =
      (db, PlaceResult.checkError (shortfallMsg ci avail)) := by
  simp [placeOrder, hne, hchk]

theorem placeOrderCommit_variants (db : Db) (uid : Nat) (items : List CartItem) (cid : Nat)
    (args : PlaceArgs) :
    (placeOrderCommit db uid items cid args).1.variants = (deductLoop db [] items).1.variants := by
  simp [placeOrderCommit]

theorem placeOrderCommit_products (db : Db) (uid : Nat) (items : List CartItem) (cid : Nat)
    (args : PlaceArgs) :
    (placeOrderCommit db uid items cid args).1.products =
      (recalcProducts (deductLoop db [] items).1 (deductLoop db [] items).2).products := by
  simp [placeOrderCommit]

theorem placeOrderCommit_orders (db : Db) (uid : Nat) (items : List CartItem) (cid : Nat)
    (args : PlaceArgs) :
    (placeOrderCommit db uid items cid args).1.orders =
      db.orders ++ [(placeOrderCommit db uid items cid args).2] := by
  simp [placeOrderCommit, deductLoop_orders]

theorem placeOrderCommit_payments (db : Db) (uid : Nat) (items : List CartItem) (cid : Nat)
    (args : PlaceArgs) :
    (placeOrderCommit db uid items cid args).1.payments =
      db.payments ++
        [{ order_id := (placeOrderCommit db uid items cid args).2.id,
           amount := cartTotal items, method := args.payment_method,
           status := paymentStatusOf args.paymentDetails,
           transaction_id := transactionIdOf args.paymentDetails }] := by
  simp [placeOrderCommit, deductLoop_payments]

theorem placeOrderCommit_order_fields (db : Db) (uid : Nat) (items : List CartItem) (cid : Nat)
    (args : PlaceArgs) :
    (placeOrderCommit db uid items cid args).2.total = cartTotal items ∧
    (placeOrderCommit db uid items cid args).2.status = "processing" ∧
    (placeOrderCommit db uid items cid args).2.payment_status =
      paymentStatusOf args.paymentDetails ∧
    (placeOrderCommit db uid items cid args).2.payment_method = args.payment_method :=
  ⟨rfl, rfl, rfl, rfl⟩

/-! ### Lemmas about the admin edit flow and the cart total -/

theorem applyVariantUpdates_order_items (pid : Nat) :
    ∀ (l : List EditVariant) (db : Db),
      (applyVariantUpdates pid db l).order_items = db.order_items := by
  intro l
  induction l with
  | nil => intro db; rfl
  | cons v rest ih =>
    intro db
    unfold applyVariantUpdates
    split
    · rw [ih]; rfl
    · exact ih db

theorem insertNewVariants_order_items (pid : Nat) :
    ∀ (l : List EditVariant) (db : Db),
      (insertNewVariants pid db l).order_items = db.order_items := by
  intro l
  induction l with
  | nil => intro db; rfl
  | cons v rest ih =>
    intro db
    unfold insertNewVariants
    rw [ih]

theorem foldl_add_map {α : Type} (f : α → Rat) :
    ∀ (l : List α) (a : Rat), l.foldl (fun s x => s + f x) a = a + (l.map f).sum := by
  intro l
  induction l with
  | nil => intro a; simp
  | cons x xs ih => intro a; simp [ih, add_assoc]

/-- On carts whose quantities respect the data-model invariant
`quantity ≥ 1`, the code's total (`it.quantity || 1`) is the specified
`Σ price × quantity`. -/
theorem cartTotal_eq_specTotal (items : List CartItem)
    (hq : ∀ ci ∈ items, 1 ≤ ci.quantity) : cartTotal items = specTotal items := by
  unfold cartTotal specTotal
  rw [foldl_add_map, zero_add]
  congr 1
  refine List.map_congr_left ?_
  intro ci hci
  have hq1 : ci.quantity ≠ 0 := by
    have := hq ci hci
    omega
  rw [jsOrInt]
  rw [if_neg hq1]
  unfold linePrice
  cases ci.products with
  | none => simp
  | some p => simp

/-! ### Claim theorems -/

/-- C1 (code behaviour at the failing input): the claim says no variant
stock is restored when cancelling an order whose prior status is of the
shipped or delivered class, legacy spellings included. On `c1Db`, whose
order 7 carries the legacy status `Shipped`, the customer cancel operation
is not rejected: it sets the status to `cancelled` and restores variant
101's stock from 3 to 5 (and the product aggregate to 5), because the
guard compares only against the exact spellings
`cancelled`/`delivered`/`shipping`, contradicting the comment above it
(`allow cancel only if not shipped/delivered/cancelled already`). -/
theorem cancelOrder_restocks_shipped_order :
    (cancelOrder c1Db 7).2 = CancelResult.cancelled ∧
    ((cancelOrder c1Db 7).1.variants.map (fun v => v.stock)) = [5] ∧
    ((cancelOrder c1Db 7).1.products.map (fun p => p.stock)) = [5] ∧
    ((findOrder (cancelOrder c1Db 7).1 7).map (fun o => o.status)) = some "cancelled" := by
  decide

/-- C4 (code behaviour at the failing inputs): the claim says the cancel
operation always rejects an order whose status is cancelled (legacy
`canceled`) or delivered (legacy `successful`/`success`/`completed`). On
`c4Db`, order 8 with legacy status `canceled` is cancelled again rather
than rejected, and order 9 with legacy delivered status `successful` is
cancelled with variant 201's stock restored from 1 to 5. -/
theorem cancelOrder_accepts_legacy_statuses :
    (cancelOrder c4Db 8).2 = CancelResult.cancelled ∧
    ((findOrder (cancelOrder c4Db 8).1 8).map (fun o => o.status)) = some "cancelled" ∧
    (cancelOrder c4Db 9).2 = CancelResult.cancelled ∧
    ((cancelOrder c4Db 9).1.variants.map (fun v => v.stock)) = [5] := by
  decide

/-- C7: order-item snapshot rows are never modified by the admin
product-edit flow or by product deletion: `handleEditSave` writes only the
`products` and `product_variants` tables and `deleteProduct` removes only
the product and its variants, so every existing `order_items` row is left
unchanged. -/
theorem order_item_snapshots_immutable (db : Db) (ep : EditingProduct) (pid : Nat) :
    (handleEditSave db ep).1.order_items = db.order_items ∧
    (deleteProduct db pid).order_items = db.order_items := by
  constructor
  · cases h : ep.variants.isEmpty with
    | true => simp [handleEditSave, h]
    | false =>
      simp [handleEditSave, h, applyVariantUpdates_order_items, insertNewVariants_order_items]
  · rfl

/-- C10: a `POST /create-payment-intent` whose non-empty body is not valid
JSON makes `JSON.parse` throw into the generic catch, so the relay answers
500 (not the 400 `Invalid amount` validation result) and never calls the
processor; an entirely empty body is parsed as `{}` and rejected with 400
`Invalid amount`. Both the standalone server and the serverless handler
(with a configured credential) behave this way. -/
theorem relay_malformed_body_500_empty_body_400 (m : String) (stripe : StripeOutcome) :
    serverHandler { method := "POST", url := "/create-payment-intent", body := BodyModel.malformed m } stripe =
      ({ status := 500, headers := defaultHeaders, body := RelayBody.jsonError m }, false) ∧
    serverHandler { method := "POST", url := "/create-payment-intent", body := BodyModel.empty } stripe =
      ({ status := 400, headers := defaultHeaders,
         body := RelayBody.jsonError "Invalid amount" }, false) ∧
    (apiHandler "POST" true (BodyModel.malformed m) stripe).1.status = 500 ∧
    (apiHandler "POST" true (BodyModel.malformed m) stripe).2 = false ∧
    apiHandler "POST" true BodyModel.empty stripe =
      ({ status := 400, headers := defaultHeaders,
         body := RelayBody.jsonError "Invalid amount" }, false) := by
  refine ⟨?_, ?_, ?_, ?_, ?_⟩ <;>
    simp [serverHandler, apiHandler, intentBody, processIntentPayload, emptyIntentPayload,
      coercedAmount]

/-- C9 counterexample: the claim says every unrouted method/path gets a 404
with the JSON body `{error: "Not found"}`. The standalone server's
fall-through (`res.writeHead(404); res.end('Not found')`) sends the
plain-text body `Not found` with no headers, which is not the JSON error
body. -/
theorem server_404_plain_text_counterexample :
    serverHandler { method := "GET", url := "/nope", body := BodyModel.empty }
        (StripeOutcome.ok "sec" "pi_1") =
      ({ status := 404, headers := [], body := RelayBody.text "Not found" }, false) ∧
    RelayBody.text "Not found" ≠ RelayBody.jsonError "Not found" := by
  decide

/-- C9 (amended): `OPTIONS` requests get 204 with the permissive CORS
headers and an empty body on both relay entry points; a request matching
none of the three routes gets 404 — from the standalone server with the
plain-text body `Not found` and no headers, and from the serverless handler
(any non-OPTIONS, non-POST method) with the JSON body
`{error: "Not found"}` and the CORS headers. -/
theorem relay_options_and_fallthrough (req : HttpRequest) (m : String) (hs : Bool)
    (b : BodyModel) (stripe : StripeOutcome)
    (h1 : req.method ≠ "OPTIONS")
    (h2 : ¬(req.method = "POST" ∧ req.url = "/create-payment-intent"))
    (h3 : ¬(req.method = "GET" ∧ req.url = "/health"))
    (h4 : m ≠ "OPTIONS") (h5 : m ≠ "POST") :
    serverHandler { method := "OPTIONS", url := req.url, body := b } stripe =
      ({ status := 204, headers := defaultHeaders, body := RelayBody.empty }, false) ∧
    apiHandler "OPTIONS" hs b stripe =
      ({ status := 204, headers := defaultHeaders, body := RelayBody.empty }, false) ∧
    serverHandler req stripe =
      ({ status := 404, headers := [], body := RelayBody.text "Not found" }, false) ∧
    apiHandler m hs b stripe =
      ({ status := 404, headers := defaultHeaders,
         body := RelayBody.jsonError "Not found" }, false) := by
  refine ⟨?_, ?_, ?_, ?_⟩
  · simp [serverHandler]
  · simp [apiHandler]
  · simp [serverHandler, h1, h2, h3]
  · simp [apiHandler, h4, h5]

theorem relay_options_and_fallthrough_witness :
    (("GET" : String) ≠ "OPTIONS") ∧
    (serverHandler { method := "OPTIONS", url := "/nope", body := BodyModel.empty }
        (StripeOutcome.ok "sec" "pi_1") =
      ({ status := 204, headers := defaultHeaders, body := RelayBody.empty }, false) ∧
    apiHandler "OPTIONS" true BodyModel.empty (StripeOutcome.ok "sec" "pi_1") =
      ({ status := 204, headers := defaultHeaders, body := RelayBody.empty }, false) ∧
    serverHandler { method := "GET", url := "/nope", body := BodyModel.empty }
        (StripeOutcome.ok "sec" "pi_1") =
      ({ status := 404, headers := [], body := RelayBody.text "Not found" }, false) ∧
    apiHandler "DELETE" true BodyModel.empty (StripeOutcome.ok "sec" "pi_1") =
      ({ status := 404, headers := defaultHeaders,
         body := RelayBody.jsonError "Not found" }, false)) :=
  ⟨by decide,
    relay_options_and_fallthrough
      { method := "GET", url := "/nope", body := BodyModel.empty } "DELETE" true
      BodyModel.empty (StripeOutcome.ok "sec" "pi_1")
      (by decide) (by decide) (by decide) (by decide) (by decide)⟩

/-- C8: a `POST /create-payment-intent` whose `amount` is missing, zero, or
negative after JS `Number` coercion is rejected by both relay entry points
with 400 and the JSON body `{error: "Invalid amount"}`, and the external
payment processor is never called. -/
theorem relay_rejects_nonpositive_amount (p : IntentPayload) (stripe : StripeOutcome)
    (h : p.amount = none ∨ coercedAmount p.amount = 0 ∨ coercedAmount p.amount < 0) :
    serverHandler { method := "POST", url := "/create-payment-intent", body := BodyModel.json p } stripe =
      ({ status := 400, headers := defaultHeaders,
         body := RelayBody.jsonError "Invalid amount" }, false) ∧
    apiHandler "POST" true (BodyModel.json p) stripe =
      ({ status := 400, headers := defaultHeaders,
         body := RelayBody.jsonError "Invalid amount" }, false) := by
  have hc : coercedAmount p.amount = 0 ∨ coercedAmount p.amount ≤ 0 := by
    rcases h with h | h | h
    · left; rw [h]; rfl
    · left; exact h
    · right; exact le_of_lt h
  constructor <;> simp [serverHandler, apiHandler, intentBody, processIntentPayload, hc]

theorem relay_rejects_nonpositive_amount_witness :
    (c8Payload.amount = none ∨ coercedAmount c8Payload.amount = 0 ∨
      coercedAmount c8Payload.amount < 0) ∧
    (serverHandler { method := "POST", url := "/create-payment-intent", body := BodyModel.json c8Payload } (StripeOutcome.ok "sec" "pi_1") =
      ({ status := 400, headers := defaultHeaders,
         body := RelayBody.jsonError "Invalid amount" }, false) ∧
    apiHandler "POST" true (BodyModel.json c8Payload) (StripeOutcome.ok "sec" "pi_1") =
      ({ status := 400, headers := defaultHeaders,
         body := RelayBody.jsonError "Invalid amount" }, false)) :=
  ⟨Or.inr (Or.inl (by decide)),
    relay_rejects_nonpositive_amount c8Payload (StripeOutcome.ok "sec" "pi_1")
      (Or.inr (Or.inl (by decide)))⟩

/-- C3: checkout with an empty cart is rejected with no mutation; checkout
with any line whose requested quantity exceeds the live variant stock
aborts with no mutation and no order created; and when every line's variant
can be fetched, the abort message is the shortfall alert naming the
deficient line (via `ci.products?.name || "an item"`), its live
availability and the requested quantity. -/
theorem placeOrder_rejects_empty_and_shortfall (db : Db) (uid cid : Nat) (args : PlaceArgs)
    (items : List CartItem) :
    placeOrder db (some uid) [] cid args = (db, PlaceResult.emptyCart) ∧
    ((∃ ci ∈ items, ∃ v, findVariant db ci.product_variant_id = some v ∧
        v.stock < ci.quantity) →
      (placeOrder db (some uid) items cid args).1 = db ∧
      ∀ o, (placeOrder db (some uid) items cid args).2 ≠ PlaceResult.placed o) ∧
    ((∀ ci ∈ items, (findVariant db ci.product_variant_id).isSome) →
     (∃ ci ∈ items, ∃ v, findVariant db ci.product_variant_id = some v ∧
        v.stock < ci.quantity) →
      ∃ ci avail v, ci ∈ items ∧ findVariant db ci.product_variant_id = some v ∧
        v.stock = avail ∧ avail < ci.quantity ∧
        placeOrder db (some uid) items cid args =
          (db, PlaceResult.checkError (shortfallMsg ci avail))) := by
  refine ⟨rfl, ?_, ?_⟩
  · intro hex
    have hne : items.isEmpty = false := by
      rcases hex with ⟨ci, hci, _⟩
      cases items with
      | nil => cases hci
      | cons a l => rfl
    cases hchk : firstCheckFailure db items with
    | none => exact absurd hchk (firstCheckFailure_ne_none_of_short db items hex)
    | some f =>
      cases f with
      | fetchFailed ci =>
        rw [placeOrder_fetchFailed db uid items cid args ci hne hchk]
        exact ⟨rfl, fun o h => by simp at h⟩
      | short ci avail =>
        rw [placeOrder_short db uid items cid args ci avail hne hchk]
        exact ⟨rfl, fun o h => by simp at h⟩
  · intro hall hex
    have hne : items.isEmpty = false := by
      rcases hex with ⟨ci, hci, _⟩
      cases items with
      | nil => cases hci
      | cons a l => rfl
    cases hchk : firstCheckFailure db items with
    | none => exact absurd hchk (firstCheckFailure_ne_none_of_short db items hex)
    | some f =>
      rcases firstCheckFailure_fail_is_short db items hall f hchk with ⟨ci, avail, rfl⟩
      rcases firstCheckFailure_short_sound db items ci avail hchk with ⟨hmem, v, hv, hst, hlt⟩
      exact ⟨ci, avail, v, hmem, hv, hst, hlt,
        placeOrder_short db uid items cid args ci avail hne hchk⟩

theorem placeOrder_rejects_empty_and_shortfall_witness :
    (placeOrder wDb (some 1) [] 77 wArgs = (wDb, PlaceResult.emptyCart)) ∧
    (∃ ci ∈ [wShortItem], ∃ v, findVariant wDb ci.product_variant_id = some v ∧
      v.stock < ci.quantity) ∧
    ((placeOrder wDb (some 1) [wShortItem] 77 wArgs).1 = wDb ∧
      ∀ o, (placeOrder wDb (some 1) [wShortItem] 77 wArgs).2 ≠ PlaceResult.placed o) ∧
    (∃ ci avail v, ci ∈ [wShortItem] ∧ findVariant wDb ci.product_variant_id = some v ∧
      v.stock = avail ∧ avail < ci.quantity ∧
      placeOrder wDb (some 1) [wShortItem] 77 wArgs =
        (wDb, PlaceResult.checkError (shortfallMsg ci avail))) := by
  have h := placeOrder_rejects_empty_and_shortfall wDb 1 77 wArgs [wShortItem]
  have hex : ∃ ci ∈ [wShortItem], ∃ v, findVariant wDb ci.product_variant_id = some v ∧
      v.stock < ci.quantity :=
    ⟨wShortItem, List.mem_cons_self _ _, _, rfl, by decide⟩
  have hall : ∀ ci ∈ [wShortItem], (findVariant wDb ci.product_variant_id).isSome := by
    decide
  exact ⟨h.1, hex, h.2.1 hex, h.2.2 hall hex⟩

/-- C2: for every checkout that passes the stock re-check, with the cart's
variant references pairwise distinct (the data model's one-line-per-variant
convention), each line's variant ends with its stock decremented by the
requested quantity floored at zero, and every product owning a purchased
variant stores an aggregate stock equal to the sum of its variants' stock
in the final state. -/
theorem placeOrder_deducts_and_recomputes (db : Db) (uid : Nat) (items : List CartItem)
    (cid : Nat) (args : PlaceArgs)
    (hne : items ≠ [])
    (hchk : firstCheckFailure db items = none)
    (hnd : (items.map (fun ci => ci.product_variant_id)).Nodup) :
    (∀ ci ∈ items, ∃ v, findVariant db ci.product_variant_id = some v ∧
        findVariant (placeOrder db (some uid) items cid args).1 ci.product_variant_id =
          some { v with stock := max 0 (v.stock - ci.quantity) }) ∧
    (∀ ci ∈ items, ∀ v, findVariant db ci.product_variant_id = some v →
        ∀ p, findProduct (placeOrder db (some uid) items cid args).1 v.product_id = some p →
          p.stock =
            variantStockSum (placeOrder db (some uid) items cid args).1.variants
              v.product_id) := by
  have hne' : items.isEmpty = false := by
    cases items with
    | nil => exact absurd rfl hne
    | cons a l => rfl
  rw [placeOrder_success db uid items cid args hne' hchk]
  dsimp only
  have hex : ∀ ci ∈ items, (findVariant db ci.product_variant_id).isSome := by
    intro ci hci
    rcases firstCheckFailure_none_sound db items hchk ci hci with ⟨v, hv, _⟩
    rw [hv]; rfl
  have hvars : (placeOrderCommit db uid items cid args).1.variants =
      (deductLoop db [] items).1.variants := placeOrderCommit_variants db uid items cid args
  constructor
  · intro ci hci
    rcases deductLoop_stock items db [] hex hnd ci hci with ⟨v, hv, hfin⟩
    refine ⟨v, hv, ?_⟩
    rw [findVariant_ext hvars]
    exact hfin
  · intro ci hci v hv p hp
    have hpid : v.product_id ∈ (deductLoop db [] items).2 := by
      refine deductLoop_pids_mem items db [] ci hci v.product_id ?_
      rw [hv]; rfl
    have hprods : (placeOrderCommit db uid items cid args).1.products =
        (recalcProducts (deductLoop db [] items).1 (deductLoop db [] items).2).products :=
      placeOrderCommit_products db uid items cid args
    rw [findProduct_ext hprods] at hp
    have hstock := recalcProducts_stock (deductLoop db [] items).2 (deductLoop db [] items).1
      v.product_id hpid p hp
    rw [hvars]
    exact hstock

theorem placeOrder_deducts_and_recomputes_witness :
    (([wItem] : List CartItem) ≠ []) ∧
    (firstCheckFailure wDb [wItem] = none) ∧
    (([wItem].map (fun ci => ci.product_variant_id)).Nodup) ∧
    (findVariant (placeOrder wDb (some 1) [wItem] 77 wArgs).1 301 =
      some { id := 301, product_id := 31, color := "Black", size := "M",
             stock := 3, img_url := "" }) ∧
    (∀ p, findProduct (placeOrder wDb (some 1) [wItem] 77 wArgs).1 31 = some p →
      p.stock = variantStockSum (placeOrder wDb (some 1) [wItem] 77 wArgs).1.variants 31) := by
  have h := placeOrder_deducts_and_recomputes wDb 1 [wItem] 77 wArgs
    (by decide) (by decide) (by decide)
  refine ⟨by decide, by decide, by decide, ?_, ?_⟩
  · rcases h.1 wItem (List.mem_cons_self _ _) with ⟨v, hv, hfin⟩
    have hv2 : findVariant wDb wItem.product_variant_id =
        some ({ id := 301, product_id := 31, color := "Black", size := "M",
                stock := 5, img_url := "" } : Variant) := by decide
    rw [hv] at hv2
    cases hv2
    exact hfin
  · intro p hp
    exact h.2 wItem (List.mem_cons_self _ _)
      { id := 301, product_id := 31, color := "Black", size := "M",
        stock := 5, img_url := "" } (by decide) p hp

/-- C5: the admin status update persists the requested status verbatim, and
restores variant stock (with product aggregates recomputed) exactly when
the lowercased target is `cancelled` and the lowercased previous status was
`pending` or `processing`; in every other case — in particular cancelling
an order currently `shipping` — the `product_variants` and `products`
tables are left completely unchanged. -/
theorem updateStatus_restock_iff (db : Db) (oid : Nat) (newStatus : String) (o : Order)
    (ho : findOrder db oid = some o) :
    (findOrder (updateStatus db oid newStatus).1 oid = some { o with status := newStatus }) ∧
    (¬(jsToLower newStatus = "cancelled" ∧
        (jsToLower o.status = "pending" ∨ jsToLower o.status = "processing")) →
      (updateStatus db oid newStatus).1.variants = db.variants ∧
      (updateStatus db oid newStatus).1.products = db.products) ∧
    ((jsToLower newStatus = "cancelled" ∧
        (jsToLower o.status = "pending" ∨ jsToLower o.status = "processing")) →
      ((orderItemsOf db oid).filterMap (fun it => it.product_variant_id)).Nodup →
      (∀ it ∈ orderItemsOf db oid, ∀ vid, it.product_variant_id = some vid →
        ∀ v, findVariant db vid = some v →
          findVariant (updateStatus db oid newStatus).1 vid =
            some { v with stock := v.stock + it.quantity }) ∧
      (∀ it ∈ orderItemsOf db oid, ∀ vid, it.product_variant_id = some vid →
        ∀ v, findVariant db vid = some v →
          ∀ p, findProduct (updateStatus db oid newStatus).1 v.product_id = some p →
            p.stock =
              variantStockSum (updateStatus db oid newStatus).1.variants v.product_id)) := by
  by_cases hcond : jsToLower newStatus = "cancelled" ∧
      (jsToLower o.status = "pending" ∨ jsToLower o.status = "processing")
  · have hkey : updateStatus db oid newStatus =
        (recalcProducts
          (restockAdminLoop (setOrderStatus db oid newStatus) []
            (orderItemsOf db oid)).1
          (restockAdminLoop (setOrderStatus db oid newStatus) []
            (orderItemsOf db oid)).2, AdminResult.ok) := by
      simp only [updateStatus, ho]
      rw [if_pos hcond]
      rfl
    refine ⟨?_, fun hnc => absurd hcond hnc, fun _ hnd => ⟨?_, ?_⟩⟩
    · rw [hkey]
      dsimp only
      have horders : (recalcProducts
          (restockAdminLoop (setOrderStatus db oid newStatus) [] (orderItemsOf db oid)).1
          (restockAdminLoop (setOrderStatus db oid newStatus) []
            (orderItemsOf db oid)).2).orders = (setOrderStatus db oid newStatus).orders := by
        rw [recalcProducts_orders, restockAdminLoop_orders]
      rw [findOrder_ext horders, findOrder_setOrderStatus_self, ho]
      rfl
    · intro it hit vid hvid v hv
      rw [hkey]
      dsimp only
      have hvarseq : (recalcProducts
          (restockAdminLoop (setOrderStatus db oid newStatus) [] (orderItemsOf db oid)).1
          (restockAdminLoop (setOrderStatus db oid newStatus) []
            (orderItemsOf db oid)).2).variants =
          (restockAdminLoop (setOrderStatus db oid newStatus) []
            (orderItemsOf db oid)).1.variants := recalcProducts_variants _ _
      rw [findVariant_ext hvarseq]
      exact restockAdminLoop_stock (orderItemsOf db oid) (setOrderStatus db oid newStatus) []
        hnd it hit vid hvid v hv
    · intro it hit vid hvid v hv p hp
      rw [hkey] at hp ⊢
      dsimp only at hp ⊢
      have hpid : v.product_id ∈
          (restockAdminLoop (setOrderStatus db oid newStatus) []
            (orderItemsOf db oid)).2 := by
        refine restockAdminLoop_pids_mem (orderItemsOf db oid)
          (setOrderStatus db oid newStatus) [] it hit vid hvid v.product_id ?_
        rw [show findVariant (setOrderStatus db oid newStatus) vid = findVariant db vid from rfl,
          hv]
        rfl
      have hstock := recalcProducts_stock
        (restockAdminLoop (setOrderStatus db oid newStatus) [] (orderItemsOf db oid)).2
        (restockAdminLoop (setOrderStatus db oid newStatus) [] (orderItemsOf db oid)).1
        v.product_id hpid p hp
      rw [recalcProducts_variants]
      exact hstock
  · have hkey : updateStatus db oid newStatus =
        (setOrderStatus db oid newStatus, AdminResult.ok) := by
      simp only [updateStatus, ho]
      rw [if_neg hcond]
    refine ⟨?_, fun _ => ?_, fun hc _ => absurd hc hcond⟩
    · rw [hkey]
      dsimp only
      rw [findOrder_setOrderStatus_self, ho]
      rfl
    · rw [hkey]
      exact ⟨rfl, rfl⟩

theorem updateStatus_restock_iff_witness :
    (findOrder c5Db 41 = some c5Order) ∧
    (findOrder (updateStatus c5Db 41 "Cancelled").1 41 =
      some { c5Order with status := "Cancelled" }) ∧
    ((updateStatus c5Db 41 "Cancelled").1.variants = c5Db.variants) ∧
    ((updateStatus c5Db 41 "Cancelled").1.products = c5Db.products) ∧
    (findVariant (updateStatus c5ProcDb 42 "Cancelled").1 301 =
      some { id := 301, product_id := 31, color := "Black", size := "M",
             stock := 8, img_url := "" }) := by
  have hneg := updateStatus_restock_iff c5Db 41 "Cancelled" c5Order (by decide)
  have hpos := updateStatus_restock_iff c5ProcDb 42 "Cancelled" c5ProcOrder (by decide)
  have hnc : ¬(jsToLower "Cancelled" = "cancelled" ∧
      (jsToLower c5Order.status = "pending" ∨ jsToLower c5Order.status = "processing")) := by
    decide
  refine ⟨by decide, hneg.1, (hneg.2.1 hnc).1, (hneg.2.1 hnc).2, ?_⟩
  have hres := (hpos.2.2 (by decide) (by decide)).1
  have hone := hres
    { baseOrderItem with
      order_id := 42, product_id := 31,
      product_variant_id := some 301, quantity := 3 }
    (by decide) 301 (by decide)
    { id := 301, product_id := 31, color := "Black", size := "M",
      stock := 5, img_url := "" } (by decide)
  exact hone

/-- C6 counterexample: the claim says the payment row's `transaction_id` is
taken from the payment confirmation whenever an id is present. With a
confirmation carrying the present but empty-string id
(`paymentDetails = {id: "", status: "succeeded"}`), the stored
`transaction_id` is null, because `paymentDetails?.id || null` treats the
empty string as falsy. -/
theorem placeOrder_blank_transaction_id_counterexample :
    ((placeOrder wDb (some 1) [wItem] 77 c6Args).1.payments.map
      (fun p => p.transaction_id)) = [none] ∧
    c6Args.paymentDetails.bind (fun d => d.id) = some "" := by
  decide

/-- C6 (amended): a checkout that passes the re-check (with the data-model
invariant `quantity ≥ 1`) creates exactly one order whose total is
`Σ line price × quantity`, status `processing`, payment status `paid` when
the confirmation reports `succeeded` and `pending` otherwise, and exactly
one payment row mirroring amount, method and payment status — whose
`transaction_id` is the confirmation's id when one is present *and
non-empty* (JS truthiness), and null when the confirmation or its id is
absent or the id is the empty string. -/
theorem placeOrder_creates_order_and_payment (db : Db) (uid : Nat) (items : List CartItem)
    (cid : Nat) (args : PlaceArgs)
    (hne : items ≠ [])
    (hchk : firstCheckFailure db items = none)
    (hq : ∀ ci ∈ items, 1 ≤ ci.quantity) :
    ∃ o pay,
      (placeOrder db (some uid) items cid args).2 = PlaceResult.placed o ∧
      (placeOrder db (some uid) items cid args).1.orders = db.orders ++ [o] ∧
      o.total = specTotal items ∧
      o.status = "processing" ∧
      o.payment_status =
        (match args.paymentDetails with
         | some d => if d.status = "succeeded" then "paid" else "pending"
         | none => "pending") ∧
      (placeOrder db (some uid) items cid args).1.payments = db.payments ++ [pay] ∧
      pay.order_id = o.id ∧
      pay.amount = o.total ∧
      pay.method = args.payment_method ∧
      pay.status = o.payment_status ∧
      (∀ d s, args.paymentDetails = some d → d.id = some s → s ≠ "" →
        pay.transaction_id = some s) ∧
      ((args.paymentDetails.bind (fun d => d.id) = none ∨
        args.paymentDetails.bind (fun d => d.id) = some "") →
        pay.transaction_id = none) := by
  have hne' : items.isEmpty = false := by
    cases items with
    | nil => exact absurd rfl hne
    | cons a l => rfl
  refine ⟨(placeOrderCommit db uid items cid args).2,
    { order_id := (placeOrderCommit db uid items cid args).2.id,
      amount := cartTotal items, method := args.payment_method,
      status := paymentStatusOf args.paymentDetails,
      transaction_id := transactionIdOf args.paymentDetails },
    ?_, ?_, ?_, ?_, ?_, ?_, ?_, ?_, ?_, ?_, ?_, ?_⟩
  · rw [placeOrder_success db uid items cid args hne' hchk]
  · rw [placeOrder_success db uid items cid args hne' hchk]
    exact placeOrderCommit_orders db uid items cid args
  · rw [(placeOrderCommit_order_fields db uid items cid args).1]
    exact cartTotal_eq_specTotal items hq
  · exact (placeOrderCommit_order_fields db uid items cid args).2.1
  · rw [(placeOrderCommit_order_fields db uid items cid args).2.2.1]
    rfl
  · rw [placeOrder_success db uid items cid args hne' hchk]
    exact placeOrderCommit_payments db uid items cid args
  · rfl
  · exact ((placeOrderCommit_order_fields db uid items cid args).1).symm
  · rfl
  · exact ((placeOrderCommit_order_fields db uid items cid args).2.2.1).symm
  · intro d s hd hs hsne
    simp [transactionIdOf, hd, hs, hsne]
  · intro hcase
    cases hpd : args.paymentDetails with
    | none => simp [transactionIdOf]
    | some d =>
      rw [hpd] at hcase
      rcases hcase with hc | hc
      · simp only [Option.some_bind] at hc
        simp [transactionIdOf, hc]
      · simp only [Option.some_bind] at hc
        simp [transactionIdOf, hc]

theorem placeOrder_creates_order_and_payment_witness :
    (([wItem] : List CartItem) ≠ []) ∧
    (firstCheckFailure wDb [wItem] = none) ∧
    (∀ ci ∈ [wItem], 1 ≤ ci.quantity) ∧
    (∃ o pay,
      (placeOrder wDb (some 1) [wItem] 77 wArgs).2 = PlaceResult.placed o ∧
      (placeOrder wDb (some 1) [wItem] 77 wArgs).1.orders = wDb.orders ++ [o] ∧
      o.total = specTotal [wItem] ∧
      o.status = "processing" ∧
      o.payment_status =
        (match wArgs.paymentDetails with
         | some d => if d.status = "succeeded" then "paid" else "pending"
         | none => "pending") ∧
      (placeOrder wDb (some 1) [wItem] 77 wArgs).1.payments = wDb.payments ++ [pay] ∧
      pay.order_id = o.id ∧
      pay.amount = o.total ∧
      pay.method = wArgs.payment_method ∧
      pay.status = o.payment_status ∧
      (∀ d s, wArgs.paymentDetails = some d → d.id = some s → s ≠ "" →
        pay.transaction_id = some s) ∧
      ((wArgs.paymentDetails.bind (fun d => d.id) = none ∨
        wArgs.paymentDetails.bind (fun d => d.id) = some "") →
        pay.transaction_id = none)) :=
  ⟨by decide, by decide, by decide,
    placeOrder_creates_order_and_payment wDb 1 [wItem] 77 wArgs
      (by decide) (by decide) (by decide)⟩

end Storefront
